import Mathlib

/-!
Verification development for the personal-finance-tracker repository.

The repository persists two record types (transactions, budgets) in an
IndexedDB-backed store and derives aggregate metrics from them.  This file
gives a shallow embedding of the relevant source modules:

- src/services/calculationService.ts  (class CalculationService)
- src/storage/indexeddb.ts            (class IndexedDBAdapter)
- src/services/budgetService.ts       (class BudgetService)
- src/utils/errorHandling.ts          (isTransientError, retryWithBackoff)

Modelling conventions, used throughout:

- JavaScript numbers are modelled as rationals (Rat).  The claims under
  study concern only ordered-field structure (addition, negation, absolute
  value, comparison), which IEEE doubles share with Rat on the magnitudes
  the application handles; NaN and the infinities are excluded by the
  services' isFinite validation.
- JavaScript strings are modelled as Lean String values; the character
  level operations (toLowerCase, trim, startsWith, substring, lexicographic
  comparison) are re-implemented over List Char so that they evaluate by
  kernel reduction.  Only ASCII-relevant behaviour is exercised by the
  claims; toLowerCase is modelled as ASCII lowercasing.
- Array.prototype.sort with a consistent comparator is required by the
  ECMAScript specification to produce the unique stable, sorted
  permutation of its input.  It is modelled by List.insertionSort, which
  is stable and sorted for the same comparator, hence produces the same
  list.
- JavaScript Map preserves insertion order of keys; it is modelled as an
  association list upserted in place.
- Date parsing and the toISOString rendering are modelled at UTC (the
  nominal semantics); only the YYYY-MM-DD date-only form stored by the
  application is given a parse.
-/

/-! ## Character-level string operations -/

/-- Model of JavaScript String.prototype.toLowerCase restricted to ASCII
(the only case-folding the budget categories in the claims exercise). -/
def sLower (s : String) : String := ⟨s.data.map Char.toLower⟩

/-- Model of JavaScript String.prototype.trim: strip whitespace from both
ends. -/
def sTrim (s : String) : String :=
  ⟨((s.data.dropWhile Char.isWhitespace).reverse.dropWhile Char.isWhitespace).reverse⟩

/-- Model of JavaScript String.prototype.startsWith. -/
def sStartsWith (s pre : String) : Bool := pre.data.isPrefixOf s.data

/-- Model of JavaScript String.prototype.substring from index 0 (used as
date.substring(0, 7) to produce the YYYY-MM prefix). -/
def sTake (s : String) (n : Nat) : String := ⟨s.data.take n⟩

/-- Model of String.prototype.length (UTF-16 units; code points for the
ASCII data the claims exercise). -/
def sLength (s : String) : Nat := s.data.length

/-- Lexicographic comparison of character lists; models the comparator
a.localeCompare(b) used on YYYY-MM-DD bucket keys (on ASCII digit/hyphen
strings, locale comparison coincides with code-point order). -/
def charListLe : List Char → List Char → Bool
  | [], _ => true
  | _ :: _, [] => false
  | a :: as, b :: bs => if a = b then charListLe as bs else decide (a < b)

/-! ## Data model (src/types/index.ts) -/

/-- Transaction record: date in ISO YYYY-MM-DD form, amount positive for
income and negative for expenses, free-text category, optional notes. -/
structure Transaction where
  id : String
  date : String
  amount : Rat
  category : String
  notes : Option String := none
deriving DecidableEq, Repr

/-- Budget record: month in YYYY-MM form, category, positive limit. -/
structure Budget where
  id : String
  month : String
  category : String
  limit : Rat
deriving DecidableEq, Repr

/-- Aggregation output of calculateCategoryTotals. -/
structure CategoryTotal where
  category : String
  total : Rat
deriving DecidableEq, Repr

/-- Aggregation output of calculateSpendingOverTime: the date field holds
the bucket key. -/
structure SpendingOverTime where
  date : String
  amount : Rat
deriving DecidableEq, Repr

/-! ## Calendar arithmetic

The week bucketing in CalculationService.getGroupKey builds a Date from the
transaction's YYYY-MM-DD string, inspects getDay (0 = Sunday .. 6 =
Saturday), and moves back to the Monday of that week with setDate before
re-rendering via toISOString.  Date parsing of the date-only ISO form and
the day-of-week computation are modelled with exact civil-calendar
arithmetic at UTC. -/

/-- Gregorian leap-year test. -/
def isLeapYear (y : Nat) : Bool :=
  y % 4 == 0 && (y % 100 != 0 || y % 400 == 0)

/-- Number of days in a month (1-12) of a given year. -/
def daysInMonth (y : Nat) : Nat → Nat
  | 2 => if isLeapYear y then 29 else 28
  | 4 | 6 | 9 | 11 => 30
  | _ => 31

/-- Days in the non-leap year before the first of the given month. -/
def monthOffset : Nat → Nat
  | 1 => 0 | 2 => 31 | 3 => 59 | 4 => 90 | 5 => 120 | 6 => 151
  | 7 => 181 | 8 => 212 | 9 => 243 | 10 => 273 | 11 => 304 | _ => 334

/-- Complete days in all years before year y (year 1 maps to 0). -/
def yearDays (y : Nat) : Nat :=
  365 * (y - 1) + (y - 1) / 4 - (y - 1) / 100 + (y - 1) / 400

/-- Day number of a civil date, counting 0001-01-01 as day 0. -/
def toDayNumber (y m d : Nat) : Nat :=
  yearDays y + monthOffset m + (if 2 < m && isLeapYear y then 1 else 0) + (d - 1)

/-- Day of week in the JavaScript getDay convention (0 = Sunday .. 6 =
Saturday); 0001-01-01 was a Monday. -/
def dayOfWeekNum (y m d : Nat) : Nat := (toDayNumber y m d + 1) % 7

/-- A date triple denotes a real civil date (years before 1 are not
produced by the four-digit date strings the application stores). -/
def ValidDate (y m d : Nat) : Prop :=
  1 ≤ y ∧ 1 ≤ m ∧ m ≤ 12 ∧ 1 ≤ d ∧ d ≤ daysInMonth y m

instance (y m d : Nat) : Decidable (ValidDate y m d) := by
  unfold ValidDate; infer_instance

/-- The civil date one day earlier. -/
def prevDay : Nat × Nat × Nat → Nat × Nat × Nat
  | (y, m, d) =>
    if 1 < d then (y, m, d - 1)
    else if 1 < m then (y, m - 1, daysInMonth y (m - 1))
    else (y - 1, 12, 31)

/-- The civil date k days earlier; models Date.prototype.setDate with a
day-of-month argument that may be zero or negative (the engine rolls the
date back across month and year boundaries). -/
def subDays (t : Nat × Nat × Nat) : Nat → Nat × Nat × Nat
  | 0 => t
  | k + 1 => subDays (prevDay t) k

/-- Numeric value of an ASCII digit. -/
def digitVal (c : Char) : Nat := c.toNat - 48

/-- Parse of the date-only ISO form YYYY-MM-DD, as accepted by new
Date(s) for the strings this application stores; the ECMAScript date-time
string format rejects out-of-range months and days (new
Date("2025-02-30") is an invalid Date), which the calendar check models. -/
def parseIsoDate (s : String) : Option (Nat × Nat × Nat) :=
  match s.data with
  | [y1, y2, y3, y4, s1, m1, m2, s2, d1, d2] =>
    if y1.isDigit && y2.isDigit && y3.isDigit && y4.isDigit &&
       s1 == '-' && m1.isDigit && m2.isDigit && s2 == '-' &&
       d1.isDigit && d2.isDigit then
      let y := 1000 * digitVal y1 + 100 * digitVal y2 + 10 * digitVal y3 + digitVal y4
      let mo := 10 * digitVal m1 + digitVal m2
      let da := 10 * digitVal d1 + digitVal d2
      if 1 ≤ mo ∧ mo ≤ 12 ∧ 1 ≤ da ∧ da ≤ daysInMonth y mo then
        some (y, mo, da)
      else none
    else none
  | _ => none

/-- Two-digit zero-padded rendering (for n < 100). -/
def pad2 (n : Nat) : String :=
  ⟨[Char.ofNat (48 + n / 10 % 10), Char.ofNat (48 + n % 10)]⟩

/-- Four-digit zero-padded rendering (for n < 10000). -/
def pad4 (n : Nat) : String :=
  ⟨[Char.ofNat (48 + n / 1000 % 10), Char.ofNat (48 + n / 100 % 10),
    Char.ofNat (48 + n / 10 % 10), Char.ofNat (48 + n % 10)]⟩

/-- YYYY-MM-DD rendering of a date triple; models
toISOString().substring(0, 10) at UTC. -/
def formatYmd (y m d : Nat) : String :=
  pad4 y ++ "-" ++ pad2 m ++ "-" ++ pad2 d

/-! ## Calculation engine (src/services/calculationService.ts)

The functions below translate the bodies of the CalculationService
methods for well-typed inputs.  Each source method wraps its body in a
try/catch whose only reachable throw on a well-typed Transaction array is
the explicit Array.isArray guard, which cannot fire for a List argument;
the catch branches are therefore unreachable here.  (The behaviour of the
same code on dynamically malformed arguments is modelled separately below
for the fail-soft claim.) -/

/-- Model of the JavaScript Map used for grouping: get(k), with absent
keys read back as undefined and defaulted with the 0 fallback. -/
def mapGet (m : List (String × Rat)) (k : String) : Rat :=
  (m.lookup k).getD 0

/-- Model of Map.prototype.set: overwrite in place when the key exists
(preserving its position in insertion order), otherwise append. -/
def mapSet (m : List (String × Rat)) (k : String) (v : Rat) : List (String × Rat) :=
  match m with
  | [] => [(k, v)]
  | (k0, v0) :: rest =>
    if k0 = k then (k0, v) :: rest else (k0, v0) :: mapSet rest k v

/-- CalculationService.calculateTotalBalance: reduce of the amounts with
initial accumulator 0. -/
def calculateTotalBalance (transactions : List Transaction) : Rat :=
  transactions.foldl (fun sum t => sum + t.amount) 0

/-- CalculationService.calculateMonthlySpending: filter to the month
prefix and negative amounts, sum, and return the absolute value. -/
def calculateMonthlySpending (transactions : List Transaction) (month : String) : Rat :=
  let monthTransactions :=
    transactions.filter fun t => sStartsWith t.date month && decide (t.amount < 0)
  |monthTransactions.foldl (fun sum t => sum + t.amount) 0|

/-- Comparator order produced by the sort callback (a, b) => b.total -
a.total: a precedes b when the callback is nonpositive, i.e. descending
by total, ties stable. -/
def ctGE (a b : CategoryTotal) : Prop := b.total ≤ a.total

instance : DecidableRel ctGE := fun a b => inferInstanceAs (Decidable (b.total ≤ a.total))

/-- CalculationService.calculateCategoryTotals: group the negative-amount
transactions by exact category into a Map of absolute-value sums, then
sort descending by total. -/
def calculateCategoryTotals (transactions : List Transaction) : List CategoryTotal :=
  let categoryMap :=
    (transactions.filter fun t => decide (t.amount < 0)).foldl
      (fun m t => mapSet m t.category (mapGet m t.category + |t.amount|)) []
  let totals := categoryMap.map fun p => CategoryTotal.mk p.1 p.2
  List.insertionSort ctGE totals

/-- Grouping selector of calculateSpendingOverTime. -/
inductive GroupBy
  | day
  | week
  | month
deriving DecidableEq, Repr

/-- CalculationService.getGroupKey.  For week grouping the source builds
a Date; when the date string is not a parseable date the later
toISOString call throws a RangeError (returned here as none, which the
caller's catch turns into the empty result). -/
def getGroupKey (date : String) (groupBy : GroupBy) : Option String :=
  match groupBy with
  | .day => some date
  | .month => some (sTake date 7)
  | .week =>
    match parseIsoDate date with
    | none => none
    | some (y, m, d) =>
      let dayOfWeek := dayOfWeekNum y m d
      let diff : Nat := if dayOfWeek = 0 then 6 else dayOfWeek - 1
      let monday := subDays (y, m, d) diff
      some (formatYmd monday.1 monday.2.1 monday.2.2)

/-- Comparator order produced by the sort callback (a, b) =>
a.date.localeCompare(b.date): ascending lexicographic on bucket keys. -/
def sotLE (a b : SpendingOverTime) : Prop := charListLe a.date.data b.date.data = true

instance : DecidableRel sotLE := fun a b =>
  inferInstanceAs (Decidable (charListLe a.date.data b.date.data = true))

/-- CalculationService.calculateSpendingOverTime: group the
negative-amount transactions by bucket key into a Map of absolute-value
sums and sort ascending by key.  A key computation that throws (week
grouping on an unparseable date) aborts the forEach, and the catch
returns the empty list. -/
def calculateSpendingOverTime (transactions : List Transaction) (groupBy : GroupBy) :
    List SpendingOverTime :=
  let expenses := transactions.filter fun t => decide (t.amount < 0)
  match expenses.foldlM (m := Option)
      (fun mp t => (getGroupKey t.date groupBy).map
        fun k => mapSet mp k (mapGet mp k + |t.amount|)) [] with
  | none => []
  | some spendingMap =>
    List.insertionSort sotLE (spendingMap.map fun p => SpendingOverTime.mk p.1 p.2)

/-- CalculationService.calculateBudgetRemaining: limit minus the absolute
value of the sum of amounts of the transactions in the budget's month
with exactly the budget's category and negative amount. -/
def calculateBudgetRemaining (budget : Budget) (transactions : List Transaction) : Rat :=
  let relevantTransactions := transactions.filter fun t =>
    sStartsWith t.date budget.month && decide (t.category = budget.category) &&
      decide (t.amount < 0)
  let spent := |relevantTransactions.foldl (fun sum t => sum + t.amount) 0|
  budget.limit - spent

/-- Decidable equality of Except values, used to evaluate the model on
concrete inputs. -/
instance {E A : Type} [DecidableEq E] [DecidableEq A] : DecidableEq (Except E A) := fun a b =>
  match a, b with
  | Except.ok x, Except.ok y =>
    if h : x = y then Decidable.isTrue (by rw [h])
    else Decidable.isFalse (by simp [h])
  | Except.error x, Except.error y =>
    if h : x = y then Decidable.isTrue (by rw [h])
    else Decidable.isFalse (by simp [h])
  | Except.ok _, Except.error _ => Decidable.isFalse (by simp)
  | Except.error _, Except.ok _ => Decidable.isFalse (by simp)

/-! ## Generic storage adapter (src/storage/indexeddb.ts)

IndexedDBAdapter of T is generic over record types carrying a string id.
Records are modelled as association lists from field names to flat field
values (the stored Transaction and Budget records are flat objects), and
an object store with keyPath id is modelled as a list of records keyed by
their id field.  Every CRUD body runs inside retryWithBackoff with 2
retries; the database operations themselves are deterministic, and the
only error the modelled bodies raise is the StorageError for a missing
update target, whose message matches none of the transient substrings, so
the retry wrapper returns the first attempt's outcome unchanged (see
retryGo below for the wrapper itself). -/

/-- Flat field value of a stored record. -/
inductive FieldVal
  | str (s : String)
  | num (q : Rat)
  | boolean (b : Bool)
  | absent
deriving DecidableEq, Repr

/-- A stored record: field names to values, in property order. -/
abbrev Rec := List (String × FieldVal)

/-- Field read (undefined for a missing name). -/
def recGet (r : Rec) (k : String) : Option FieldVal := r.lookup k

/-- IndexedDB key extraction for keyPath id. -/
def recKey (r : Rec) : Option FieldVal := r.lookup "id"

/-- Object-spread overwrite of one field: replace the first occurrence in
place, or append the new field last (JavaScript property order). -/
def setField (r : Rec) (k : String) (v : FieldVal) : Rec :=
  match r with
  | [] => [(k, v)]
  | (k0, v0) :: rest =>
    if k0 = k then (k0, v) :: rest else (k0, v0) :: setField rest k v

/-- Spread merge of two objects, second over first, as in the source's
braces-existing-item-id merge in update. -/
def mergeObj (base upd : Rec) : Rec :=
  upd.foldl (fun acc p => setField acc p.1 p.2) base

/-- Errors surfaced by the adapter (src/utils/errorHandling.ts defines
the classes; StorageError carries a message). -/
inductive AdapterErr
  | storage (msg : String)
deriving DecidableEq, Repr

/-- IDBObjectStore.get by key. -/
def dbGet (store : List Rec) (id : String) : Option Rec :=
  store.find? fun r => decide (recKey r = some (FieldVal.str id))

/-- IDBObjectStore.put: replace the record with the same key, or insert. -/
def dbPut (store : List Rec) (r : Rec) : List Rec :=
  if store.any (fun r0 => decide (recKey r0 = recKey r)) then
    store.map fun r0 => if recKey r0 = recKey r then r else r0
  else store ++ [r]

/-- IDBObjectStore.delete by key: removes the record with that key and
succeeds whether or not one exists. -/
def dbDelete (store : List Rec) (id : String) : List Rec :=
  store.filter fun r => decide (¬recKey r = some (FieldVal.str id))

/-- IndexedDBAdapter.add: attach a generated identifier with an object
spread and db.add the result.  Identifier generation (a version-4 UUID)
is modelled by the newId parameter; db.add throws a ConstraintError when
the key already exists, surfaced by the catch as a StorageError. -/
def adapterAdd (store : List Rec) (newId : String) (item : Rec) :
    Except AdapterErr (String × List Rec) :=
  let itemWithId := setField item "id" (FieldVal.str newId)
  if (dbGet store newId).isSome then
    Except.error (AdapterErr.storage "Failed to add item: ConstraintError")
  else Except.ok (newId, store ++ [itemWithId])

/-- IndexedDBAdapter.getById: db.get, undefined (none) when absent. -/
def adapterGetById (store : List Rec) (id : String) : Option Rec :=
  dbGet store id

/-- The merged record update writes back: the update fields spread over
the existing record, with the id field re-imposed last. -/
def updateMerge (existing item : Rec) (id : String) : Rec :=
  setField (mergeObj existing item) "id" (FieldVal.str id)

/-- IndexedDBAdapter.update: read the existing record, fail with a
StorageError when it is absent, otherwise spread the update fields over
it, re-impose the id field last, and put it back. -/
def adapterUpdate (store : List Rec) (id : String) (item : Rec) :
    Except AdapterErr (List Rec) :=
  match dbGet store id with
  | none => Except.error (AdapterErr.storage ("Item with id " ++ id ++ " not found"))
  | some existing => Except.ok (dbPut store (updateMerge existing item id))

/-- IndexedDBAdapter.delete: db.delete, which never fails for a missing
key. -/
def adapterDelete (store : List Rec) (id : String) : Except AdapterErr (List Rec) :=
  Except.ok (dbDelete store id)

/-! ## Error classification and retry (src/utils/errorHandling.ts) -/

/-- A JavaScript Error as the retry policy sees it: its message. -/
structure JsError where
  message : String
deriving DecidableEq, Repr

/-- Contiguous-sublist test on character lists. -/
def charListContains : List Char → List Char → Bool
  | s, sub =>
    sub.isPrefixOf s ||
      (match s with
       | [] => false
       | _ :: rest => charListContains rest sub)

/-- Substring test, modelling String.prototype.includes. -/
def strIncludes (s sub : String) : Bool := charListContains s.data sub.data

/-- isTransientError: lowercase the message and look for any of the
transient substrings.  (The two upper-case entries can never match a
lowercased message; they are kept verbatim from the source.) -/
def isTransientError (error : JsError) : Bool :=
  let transientMessages :=
    ["network", "timeout", "temporarily unavailable", "connection",
     "ECONNREFUSED", "ETIMEDOUT"]
  let errorMessage := sLower error.message
  transientMessages.any fun msg => strIncludes errorMessage msg

/-- Trace of one run of retryWithBackoff: the settled outcome, the number
of times fn was invoked, and the backoff delays awaited, in order. -/
structure RetryTrace (T : Type) where
  result : Except JsError T
  calls : Nat
  waits : List Nat
deriving Repr

instance {T : Type} [DecidableEq T] : DecidableEq (RetryTrace T) := fun a b =>
  match a, b with
  | ⟨r1, c1, w1⟩, ⟨r2, c2, w2⟩ =>
    if h : r1 = r2 ∧ c1 = c2 ∧ w1 = w2 then
      Decidable.isTrue (by obtain ⟨h1, h2, h3⟩ := h; rw [h1, h2, h3])
    else Decidable.isFalse (by simp; intro e1 e2; exact fun e3 => h ⟨e1, e2, e3⟩)

/-- The retry loop of retryWithBackoff from the iteration with index
attempt onward.  The attempts of fn are modelled as a function from the
attempt index to that invocation's outcome.  Mirrors the source loop:
return on success; rethrow immediately when the failure is not transient;
rethrow when the attempt budget is exhausted; otherwise wait initialDelay
times 2 to the attempt and run the next attempt.  The source tests
attempt === maxRetries; since the loop counts attempt up from 0 by 1,
that guard fires exactly when maxRetries is no longer above attempt, the
form used here so the recursion is visibly bounded. -/
def retryGo (outcomes : Nat → Except JsError T) (maxRetries initialDelay : Nat) :
    (attempt : Nat) → RetryTrace T
  | attempt =>
    match outcomes attempt with
    | Except.ok v => ⟨Except.ok v, 1, []⟩
    | Except.error lastError =>
      if ¬isTransientError lastError then ⟨Except.error lastError, 1, []⟩
      else if maxRetries ≤ attempt then ⟨Except.error lastError, 1, []⟩
      else
        let delay := initialDelay * 2 ^ attempt
        let rest := retryGo outcomes maxRetries initialDelay (attempt + 1)
        ⟨rest.result, rest.calls + 1, delay :: rest.waits⟩
  termination_by attempt => maxRetries - attempt
  decreasing_by omega

/-- retryWithBackoff starts at attempt 0. -/
def retryWithBackoff (outcomes : Nat → Except JsError T) (maxRetries : Nat := 3)
    (initialDelay : Nat := 100) : RetryTrace T :=
  retryGo outcomes maxRetries initialDelay 0

/-! ## Budget service (src/services/budgetService.ts)

BudgetService composes the Budget storage adapter with validation and the
duplicate check.  The store is the typed list of Budget records behind
the adapter; the adapter calls (getAll, getById, add, update) are the
IndexedDBAdapter operations specialised to Budget records.  The generated
version-4 UUID of adapter add is supplied as the newId argument. -/

/-- Budget payload without an identifier (the argument of addBudget). -/
structure BudgetData where
  month : String
  category : String
  limit : Rat
deriving DecidableEq, Repr

/-- Partial budget payload (the argument of updateBudget); none is an
omitted field. -/
structure BudgetPatch where
  month : Option String := none
  category : Option String := none
  limit : Option Rat := none
deriving DecidableEq, Repr

/-- Error families thrown by the service: ValidationError, the generic
Error used for a missing update target, and StorageError from the
adapter. -/
inductive SvcError
  | validation (msg : String)
  | generic (msg : String)
  | storage (msg : String)
deriving DecidableEq, Repr

/-- Test of the month regular expression of four digits, a hyphen and two
digits. -/
def monthRegexTest (s : String) : Bool :=
  match s.data with
  | [y1, y2, y3, y4, dash, m1, m2] =>
    y1.isDigit && y2.isDigit && y3.isDigit && y4.isDigit &&
      dash == '-' && m1.isDigit && m2.isDigit
  | _ => false

/-- The numeric month of a YYYY-MM string that passed the regular
expression. -/
def monthValue (s : String) : Nat :=
  match s.data with
  | [_, _, _, _, _, m1, m2] => 10 * digitVal m1 + digitVal m2
  | _ => 0

/-- BudgetService.validateBudgetData, with the source's rule order and
messages.  The required/typeof guards on month and category fire on the
empty string (the only falsy string); the typeof, undefined/null and
isFinite guards on the limit cannot fire for a Rat-typed limit and are
omitted.  The month is a valid month exactly when new Date(month + "-01")
parses, i.e. when its MM part is 01 to 12. -/
def validateBudgetData (data : BudgetData) : Except SvcError Unit :=
  if data.month = "" then
    Except.error (SvcError.validation "Month is required and must be a string")
  else if ¬monthRegexTest data.month then
    Except.error (SvcError.validation "Month must be in YYYY-MM format")
  else if ¬(1 ≤ monthValue data.month ∧ monthValue data.month ≤ 12) then
    Except.error (SvcError.validation "Month must be a valid month")
  else if data.category = "" then
    Except.error (SvcError.validation "Category is required and must be a string")
  else if sLength (sTrim data.category) = 0 then
    Except.error (SvcError.validation "Category cannot be empty")
  else if 50 < sLength data.category then
    Except.error (SvcError.validation "Category must not exceed 50 characters")
  else if data.limit ≤ 0 then
    Except.error (SvcError.validation "Limit must be a positive number")
  else Except.ok ()

/-- BudgetService.isDuplicateBudget: scan all budgets for one with the
same month and a case-insensitively equal category, excluding the budget
being updated.  The source guard excludeId and budget.id === excludeId
first requires excludeId to be truthy, so an empty-string excludeId
excludes nothing. -/
def isDuplicateBudget (allBudgets : List Budget) (month category : String)
    (excludeId : Option String := none) : Bool :=
  let normalizedCategory := sLower (sTrim category)
  allBudgets.any fun budget =>
    match excludeId with
    | some e =>
      if ¬e = "" ∧ budget.id = e then false
      else decide (budget.month = month) &&
        decide (sLower budget.category = normalizedCategory)
    | none =>
      decide (budget.month = month) &&
        decide (sLower budget.category = normalizedCategory)

/-- BudgetService.addBudget: validate, trim the category, reject
duplicates, then adapter add.  The adapter appends the record under the
freshly generated identifier; its unique month-category compound index
cannot reject a record the case-insensitive service check admitted, and
the catch only rethrows. -/
def addBudget (store : List Budget) (newId : String) (data : BudgetData) :
    Except SvcError (List Budget × Budget) :=
  match validateBudgetData data with
  | Except.error e => Except.error e
  | Except.ok _ =>
    let sanitizedData : BudgetData := { data with category := sTrim data.category }
    if isDuplicateBudget store sanitizedData.month sanitizedData.category then
      Except.error (SvcError.validation
        ("A budget for " ++ sanitizedData.category ++ " in " ++ sanitizedData.month ++
          " already exists"))
    else
      let budget : Budget :=
        { id := newId, month := sanitizedData.month,
          category := sanitizedData.category, limit := sanitizedData.limit }
      Except.ok (store ++ [budget], budget)

/-- IndexedDBAdapter.update specialised to Budget records: read the
record with the given key, fail with the StorageError when absent,
otherwise spread the supplied fields over it, re-impose the identifier,
and put it back under the same key. -/
def adapterUpdateBudget (store : List Budget) (id : String) (p : BudgetPatch) :
    Except SvcError (List Budget) :=
  match store.find? (fun b => decide (b.id = id)) with
  | none => Except.error (SvcError.storage ("Item with id " ++ id ++ " not found"))
  | some existing =>
    let updated : Budget :=
      { id := id, month := p.month.getD existing.month,
        category := p.category.getD existing.category,
        limit := p.limit.getD existing.limit }
    Except.ok (store.map fun b => if b.id = id then updated else b)

/-- BudgetService.updateBudget: reject an empty payload, fetch the
existing budget (generic not-found error when absent), validate the
merged view, run the duplicate check only when month or category is
supplied, then write back only the supplied fields with the category
trimmed. -/
def updateBudget (store : List Budget) (id : String) (data : BudgetPatch) :
    Except SvcError (List Budget) :=
  if data.month = none ∧ data.category = none ∧ data.limit = none then
    Except.error (SvcError.validation "No data provided for update")
  else
    match store.find? (fun b => decide (b.id = id)) with
    | none => Except.error (SvcError.generic ("Budget with id " ++ id ++ " not found"))
    | some existing =>
      let mergedData : BudgetData :=
        { month := data.month.getD existing.month,
          category := data.category.getD existing.category,
          limit := data.limit.getD existing.limit }
      match validateBudgetData mergedData with
      | Except.error e => Except.error e
      | Except.ok _ =>
        if (data.month.isSome || data.category.isSome) &&
            isDuplicateBudget store mergedData.month mergedData.category (some id) then
          Except.error (SvcError.validation
            ("A budget for " ++ mergedData.category ++ " in " ++ mergedData.month ++
              " already exists"))
        else
          let sanitizedData : BudgetPatch :=
            { month := data.month, category := data.category.map sTrim, limit := data.limit }
          adapterUpdateBudget store id sanitizedData

/-! ## Dynamic-value model of calculateBudgetRemaining

The fail-soft claim concerns the calculation engine on malformed
arguments, which the typed embedding above cannot express.  The function
is therefore also translated over a dynamic JavaScript value type.  The
ToNumber coercion of nonempty strings and the decimal rendering of
numbers are not exercised by any claim and are modelled coarsely where
noted. -/

/-- Dynamic JavaScript value. -/
inductive JVal
  | num (q : Rat)
  | nan
  | str (s : String)
  | boolean (b : Bool)
  | undef
  | null
  | arr (elems : List JVal)
  | obj (fields : List (String × JVal))

/-- Property read: throws a TypeError on null and undefined, yields
undefined for a missing name, and yields undefined for the data
properties the engine reads on any other primitive or on an array. -/
def getField : JVal → String → Except String JVal
  | JVal.null, f =>
    Except.error ("TypeError: Cannot read properties of null (reading " ++ f ++ ")")
  | JVal.undef, f =>
    Except.error ("TypeError: Cannot read properties of undefined (reading " ++ f ++ ")")
  | JVal.obj fields, f => Except.ok ((fields.lookup f).getD JVal.undef)
  | _, _ => Except.ok JVal.undef

/-- ToNumber, with none standing for NaN.  String and object coercions
are not exercised by the claims and are modelled as NaN. -/
def jsToNumber : JVal → Option Rat
  | JVal.num q => some q
  | JVal.nan => none
  | JVal.str _ => none
  | JVal.boolean b => some (if b then 1 else 0)
  | JVal.undef => none
  | JVal.null => some 0
  | JVal.arr _ => none
  | JVal.obj _ => none

/-- Display rendering used by string concatenation; the decimal rendering
of numbers is abstracted (never exercised by the claims). -/
def jsToDisplay : JVal → String
  | JVal.str s => s
  | JVal.num _ => "(number)"
  | JVal.nan => "NaN"
  | JVal.boolean b => if b then "true" else "false"
  | JVal.undef => "undefined"
  | JVal.null => "null"
  | JVal.arr _ => "(array)"
  | JVal.obj _ => "[object Object]"

/-- The addition of the reduce callback: string operands concatenate,
otherwise ToNumber both sides with NaN absorbing. -/
def jsAdd (a b : JVal) : JVal :=
  match a, b with
  | JVal.str s, _ => JVal.str (s ++ jsToDisplay b)
  | _, JVal.str s => JVal.str (jsToDisplay a ++ s)
  | _, _ =>
    match jsToNumber a, jsToNumber b with
    | some x, some y => JVal.num (x + y)
    | _, _ => JVal.nan

/-- The comparison amount less than zero: ToNumber, false on NaN. -/
def jsLtZero (v : JVal) : Bool :=
  match jsToNumber v with
  | some x => decide (x < 0)
  | none => false

/-- Math.abs after ToNumber. -/
def jsMathAbs (v : JVal) : JVal :=
  match jsToNumber v with
  | some x => JVal.num |x|
  | none => JVal.nan

/-- Subtraction after ToNumber. -/
def jsSub (a b : JVal) : JVal :=
  match jsToNumber a, jsToNumber b with
  | some x, some y => JVal.num (x - y)
  | _, _ => JVal.nan

/-- Strict equality on the values the engine compares; two composite
values compare by reference in JavaScript, modelled as false for the
distinct literals the claims construct. -/
def jsStrictEq (a b : JVal) : Bool :=
  match a, b with
  | JVal.num x, JVal.num y => decide (x = y)
  | JVal.str x, JVal.str y => decide (x = y)
  | JVal.boolean x, JVal.boolean y => x == y
  | JVal.undef, JVal.undef => true
  | JVal.null, JVal.null => true
  | _, _ => false

/-- Method call date.startsWith(arg): throws on null and undefined
receivers, is not a function on other non-strings, and coerces the
argument to a string. -/
def jsStartsWith (recv arg : JVal) : Except String Bool :=
  match recv with
  | JVal.str s => Except.ok (sStartsWith s (jsToDisplay arg))
  | JVal.null => Except.error "TypeError: Cannot read properties of null (reading startsWith)"
  | JVal.undef =>
    Except.error "TypeError: Cannot read properties of undefined (reading startsWith)"
  | _ => Except.error "TypeError: startsWith is not a function"

/-- Array.isArray. -/
def jsIsArray : JVal → Bool
  | JVal.arr _ => true
  | _ => false

/-- The filter callback of calculateBudgetRemaining, in source evaluation
order: t.date.startsWith(budget.month) and-then t.category ===
budget.category and-then t.amount less than 0. -/
def budgetRemainingPred (budget t : JVal) : Except String Bool := do
  let tdate ← getField t "date"
  let bmonth ← getField budget "month"
  let sw ← jsStartsWith tdate bmonth
  if ¬sw then return false
  else
    let tcat ← getField t "category"
    let bcat ← getField budget "category"
    if ¬jsStrictEq tcat bcat then return false
    else
      let tamount ← getField t "amount"
      return jsLtZero tamount

/-- Array.prototype.filter with a callback that may throw. -/
def jsFilter (p : JVal → Except String Bool) : List JVal → Except String (List JVal)
  | [] => Except.ok []
  | x :: xs => do
    let keep ← p x
    let rest ← jsFilter p xs
    return if keep then x :: rest else rest

/-- The try block of calculateBudgetRemaining over dynamic values. -/
def calculateBudgetRemainingBody (budget transactions : JVal) : Except String JVal := do
  if ¬jsIsArray transactions then
    Except.error "Error: Transactions must be an array"
  else
    let elems := match transactions with
      | JVal.arr es => es
      | _ => []
    let relevantTransactions ← jsFilter (budgetRemainingPred budget) elems
    let total ← relevantTransactions.foldlM
      (fun sum t => do
        let a ← getField t "amount"
        return jsAdd sum a)
      (JVal.num 0)
    let spent := jsMathAbs total
    let blimit ← getField budget "limit"
    return jsSub blimit spent

/-- calculateBudgetRemaining over dynamic values: the catch handler
returns budget.limit, an expression that itself reads a property of the
budget argument and therefore throws again when the budget is null or
undefined. -/
def calculateBudgetRemainingDyn (budget transactions : JVal) : Except String JVal :=
  match calculateBudgetRemainingBody budget transactions with
  | Except.ok v => Except.ok v
  | Except.error _ => getField budget "limit"

/-! ## Helper lemmas -/

theorem charListLe_total : ∀ as bs : List Char,
    charListLe as bs = true ∨ charListLe bs as = true := by
  intro as
  induction as with
  | nil => intro bs; left; rfl
  | cons a as ih =>
    intro bs
    cases bs with
    | nil => right; rfl
    | cons b bs =>
      by_cases hab : a = b
      · subst hab
        rcases ih bs with h | h
        · left; simp [charListLe, h]
        · right; simp [charListLe, h]
      · rcases lt_trichotomy a b with h | h | h
        · left; simp [charListLe, hab, h]
        · exact absurd h hab
        · right; simp [charListLe, Ne.symm hab, h]

theorem charListLe_trans : ∀ as bs cs : List Char,
    charListLe as bs = true → charListLe bs cs = true → charListLe as cs = true := by
  intro as
  induction as with
  | nil => intro bs cs _ _; rfl
  | cons a as ih =>
    intro bs cs h1 h2
    cases bs with
    | nil => simp [charListLe] at h1
    | cons b bs =>
      cases cs with
      | nil => simp [charListLe] at h2
      | cons c cs =>
        simp only [charListLe] at h1 h2 ⊢
        by_cases hab : a = b <;> by_cases hbc : b = c
        · subst hab hbc
          simp only [if_pos rfl] at h1 h2 ⊢
          exact ih _ _ h1 h2
        · subst hab; simpa [hbc] using h2
        · subst hbc; simpa [hab] using h1
        · rw [if_neg hab, decide_eq_true_eq] at h1
          rw [if_neg hbc, decide_eq_true_eq] at h2
          have hac : a < c := lt_trans h1 h2
          simp [ne_of_lt hac, hac]

theorem lookup_cons_ite {B : Type} (k0 k : String) (v0 : B) (rest : List (String × B)) :
    List.lookup k ((k0, v0) :: rest) = if k0 = k then some v0 else List.lookup k rest := by
  by_cases h : k0 = k
  · subst h; simp [List.lookup_cons]
  · simp only [List.lookup_cons]
    rw [if_neg h]
    have hb : (k == k0) = false := by
      simpa using fun he : k = k0 => h he.symm
    rw [hb]

theorem lookup_setField_self (r : Rec) (k : String) (v : FieldVal) :
    (setField r k v).lookup k = some v := by
  induction r with
  | nil => simp [setField, lookup_cons_ite]
  | cons p rest ih =>
    obtain ⟨k0, v0⟩ := p
    by_cases h : k0 = k
    · subst h; simp [setField, lookup_cons_ite]
    · simp [setField, h, lookup_cons_ite, ih]

theorem lookup_setField_other (r : Rec) (k : String) (v : FieldVal) (k' : String)
    (hk : k' ≠ k) : (setField r k v).lookup k' = r.lookup k' := by
  induction r with
  | nil => simp [setField, lookup_cons_ite, Ne.symm hk]
  | cons p rest ih =>
    obtain ⟨k0, v0⟩ := p
    by_cases h : k0 = k
    · subst h
      simp [setField, lookup_cons_ite, ih, Ne.symm hk]
    · simp [setField, h, lookup_cons_ite, ih]

theorem setField_eq_append (r : Rec) (k : String) (v : FieldVal)
    (h : r.lookup k = none) : setField r k v = r ++ [(k, v)] := by
  induction r with
  | nil => simp [setField]
  | cons p rest ih =>
    obtain ⟨k0, v0⟩ := p
    rw [lookup_cons_ite] at h
    by_cases hk : k0 = k
    · simp [hk] at h
    · rw [if_neg hk] at h
      simp [setField, hk, ih h]

theorem lookup_append_left_none {B : Type} (l1 l2 : List (String × B)) (k : String)
    (h : l1.lookup k = none) : (l1 ++ l2).lookup k = l2.lookup k := by
  induction l1 with
  | nil => simp
  | cons p rest ih =>
    obtain ⟨k0, v0⟩ := p
    rw [lookup_cons_ite] at h
    by_cases hk : k0 = k
    · simp [hk] at h
    · rw [if_neg hk] at h
      rw [List.cons_append, lookup_cons_ite, if_neg hk]
      exact ih h

theorem lookup_mergeObj_none (upd : Rec) : ∀ (base : Rec) (k : String),
    upd.lookup k = none → (mergeObj base upd).lookup k = base.lookup k := by
  induction upd with
  | nil => intro base k _; rfl
  | cons p rest ih =>
    intro base k h
    obtain ⟨k0, v0⟩ := p
    rw [lookup_cons_ite] at h
    by_cases hk : k0 = k
    · simp [hk] at h
    · rw [if_neg hk] at h
      show (mergeObj (setField base k0 v0) rest).lookup k = base.lookup k
      rw [ih (setField base k0 v0) k h,
        lookup_setField_other base k0 v0 k (fun he => hk he.symm)]

theorem lookup_none_of_keys (l : Rec) (k : String) (h : k ∉ l.map Prod.fst) :
    l.lookup k = none := by
  induction l with
  | nil => rfl
  | cons p rest ih =>
    obtain ⟨k0, v0⟩ := p
    simp only [List.map_cons, List.mem_cons] at h
    push_neg at h
    rw [lookup_cons_ite, if_neg (fun he => h.1 he.symm)]
    exact ih h.2

theorem lookup_mergeObj_some (upd : Rec) : ∀ (base : Rec) (k : String) (v : FieldVal),
    (upd.map Prod.fst).Nodup → upd.lookup k = some v →
    (mergeObj base upd).lookup k = some v := by
  induction upd with
  | nil => intro base k v _ h; simp at h
  | cons p rest ih =>
    intro base k v hnd h
    obtain ⟨k0, v0⟩ := p
    simp only [List.map_cons, List.nodup_cons] at hnd
    rw [lookup_cons_ite] at h
    by_cases hk : k0 = k
    · subst hk
      rw [if_pos rfl] at h
      have hrest : rest.lookup k0 = none := lookup_none_of_keys rest k0 hnd.1
      show (mergeObj (setField base k0 v0) rest).lookup k0 = some v
      rw [lookup_mergeObj_none rest (setField base k0 v0) k0 hrest,
        lookup_setField_self]
      exact h
    · rw [if_neg hk] at h
      exact ih (setField base k0 v0) k v hnd.2 h

theorem recKey_updateMerge (existing item : Rec) (id : String) :
    recKey (updateMerge existing item id) = some (FieldVal.str id) :=
  lookup_setField_self (mergeObj existing item) "id" (FieldVal.str id)

/-! ## Claim C5 -/

/-- C5: for every identifier id not present in the store, the adapter's
update fails with a StorageError whose message says the item was not
found, while delete succeeds without error and leaves the store
unchanged (delete of a nonexistent identifier is idempotent, not an
error). -/
theorem adapterUpdate_delete_missing_id (store : List Rec) (id : String) (item : Rec)
    (h : dbGet store id = none) :
    adapterUpdate store id item =
        Except.error (AdapterErr.storage ("Item with id " ++ id ++ " not found")) ∧
      adapterDelete store id = Except.ok store := by
  constructor
  · rw [adapterUpdate, h]
  · rw [adapterDelete]
    congr 1
    rw [dbDelete, List.filter_eq_self]
    intro r hr
    rw [dbGet, List.find?_eq_none] at h
    simpa using h r hr

/-- Witness for C5 at a concrete store and missing identifier. -/
theorem adapterUpdate_delete_missing_id_witness :
    adapterUpdate [[("id", FieldVal.str "a"), ("x", FieldVal.num 1)]] "b"
          [("x", FieldVal.num 2)] =
        Except.error (AdapterErr.storage "Item with id b not found") ∧
      adapterDelete [[("id", FieldVal.str "a"), ("x", FieldVal.num 1)]] "b" =
        Except.ok [[("id", FieldVal.str "a"), ("x", FieldVal.num 1)]] :=
  adapterUpdate_delete_missing_id [[("id", FieldVal.str "a"), ("x", FieldVal.num 1)]] "b"
    [("x", FieldVal.num 2)] (by decide)

/-! ## Claim C6 -/

/-- C6: round-trip — for every record without an id field, the adapter's
add under a fresh generated identifier succeeds, and getById with the
returned identifier yields the input record with the generated id field
appended and every input field preserved unchanged. -/
theorem adapterAdd_getById_roundtrip (store : List Rec) (newId : String) (item : Rec)
    (hfresh : dbGet store newId = none) (hnoid : item.lookup "id" = none) :
    adapterAdd store newId item =
        Except.ok (newId, store ++ [item ++ [("id", FieldVal.str newId)]]) ∧
      adapterGetById (store ++ [item ++ [("id", FieldVal.str newId)]]) newId =
        some (item ++ [("id", FieldVal.str newId)]) := by
  have hset : setField item "id" (FieldVal.str newId) = item ++ [("id", FieldVal.str newId)] :=
    setField_eq_append item "id" (FieldVal.str newId) hnoid
  have hkey : recKey (item ++ [("id", FieldVal.str newId)]) = some (FieldVal.str newId) := by
    rw [recKey, lookup_append_left_none item _ "id" hnoid]
    simp [lookup_cons_ite]
  constructor
  · rw [adapterAdd, hfresh]
    simp [hset]
  · rw [adapterGetById, dbGet, List.find?_append]
    rw [dbGet] at hfresh
    rw [hfresh]
    simp [List.find?_cons, hkey]

/-- Witness for C6 at a concrete store and record. -/
theorem adapterAdd_getById_roundtrip_witness :
    adapterAdd [[("id", FieldVal.str "a")]] "u1"
          [("date", FieldVal.str "2025-01-15"), ("amount", FieldVal.num (-10))] =
        Except.ok ("u1", [[("id", FieldVal.str "a")],
          [("date", FieldVal.str "2025-01-15"), ("amount", FieldVal.num (-10)),
            ("id", FieldVal.str "u1")]]) ∧
      adapterGetById [[("id", FieldVal.str "a")],
          [("date", FieldVal.str "2025-01-15"), ("amount", FieldVal.num (-10)),
            ("id", FieldVal.str "u1")]] "u1" =
        some [("date", FieldVal.str "2025-01-15"), ("amount", FieldVal.num (-10)),
          ("id", FieldVal.str "u1")] :=
  adapterAdd_getById_roundtrip [[("id", FieldVal.str "a")]] "u1"
    [("date", FieldVal.str "2025-01-15"), ("amount", FieldVal.num (-10))]
    (by decide) (by decide)

/-! ## Claim C7

As stated, the frame property fails for a partial update object that
itself names the id field with a different value: the merge re-imposes
the original identifier last, so the stored record's id field does not
take the partial's value.  The claim is refuted at such an input and
proved in the amended form that exempts the id field. -/

/-- The frame claim as stated, at one input: after update succeeds, every
field named in the partial, including an id field, holds the partial's
value in the written record. -/
def FrameClaimAt (store : List Rec) (id : String) (item : Rec) : Prop :=
  ∀ s, adapterUpdate store id item = Except.ok s →
    ∀ r, r ∈ s → recKey r = some (FieldVal.str id) →
      ∀ k v, item.lookup k = some v → r.lookup k = some v

/-- Counterexample to C7 as stated: updating record a with the partial
containing the field id mapped to z succeeds, but the stored record's id
field still holds a, not the partial's value z. -/
theorem adapterUpdate_frame_counterexample :
    ¬ FrameClaimAt [[("id", FieldVal.str "a"), ("x", FieldVal.num 1)]] "a"
        [("id", FieldVal.str "z")] := by
  intro h
  have hs := h [[("id", FieldVal.str "a"), ("x", FieldVal.num 1)]] (by decide)
    [("id", FieldVal.str "a"), ("x", FieldVal.num 1)] (by decide) (by decide)
    "id" (FieldVal.str "z") (by decide)
  simp [lookup_cons_ite] at hs

/-- C7 (amended): after the adapter's update(id, partial) succeeds, the
stored record's fields named in the partial other than id equal the
partial's values (field-level overwrite), every field not named in the
partial and different from id is unchanged from the previous record, the
record remains stored under the same identifier — the id field is always
re-imposed to the id argument, even when the partial names it — and no
other record in the collection is modified. -/
theorem adapterUpdate_frame (store : List Rec) (id : String) (item existing : Rec)
    (h : dbGet store id = some existing) (hitem : (item.map Prod.fst).Nodup) :
    adapterUpdate store id item = Except.ok (dbPut store (updateMerge existing item id)) ∧
      (∀ k v, k ≠ "id" → item.lookup k = some v →
        (updateMerge existing item id).lookup k = some v) ∧
      (∀ k, k ≠ "id" → item.lookup k = none →
        (updateMerge existing item id).lookup k = existing.lookup k) ∧
      (updateMerge existing item id).lookup "id" = some (FieldVal.str id) ∧
      (∀ r ∈ store, recKey r ≠ some (FieldVal.str id) →
        r ∈ dbPut store (updateMerge existing item id)) := by
  refine ⟨by rw [adapterUpdate, h], ?_, ?_, ?_, ?_⟩
  · intro k v hk hv
    rw [updateMerge, lookup_setField_other _ _ _ _ hk]
    exact lookup_mergeObj_some item existing k v hitem hv
  · intro k hk hv
    rw [updateMerge, lookup_setField_other _ _ _ _ hk]
    exact lookup_mergeObj_none item existing k hv
  · exact lookup_setField_self _ _ _
  · intro r hr hkey
    have hkm : recKey (updateMerge existing item id) = some (FieldVal.str id) :=
      recKey_updateMerge existing item id
    rw [dbPut]
    by_cases hex : store.any (fun r0 => decide (recKey r0 = recKey (updateMerge existing item id)))
    · rw [if_pos hex]
      have hmemmap := List.mem_map_of_mem
        (fun r0 => if recKey r0 = recKey (updateMerge existing item id)
          then updateMerge existing item id else r0) hr
      simpa [hkm, hkey] using hmemmap
    · rw [if_neg hex]
      exact List.mem_append_left _ hr

/-- Witness for the amended C7 at a concrete store: the field x named in
the partial is overwritten, the untouched field y keeps its value, the
id field holds the identifier, and the other record b is still stored. -/
theorem adapterUpdate_frame_witness :
    adapterUpdate
          [[("id", FieldVal.str "a"), ("x", FieldVal.num 1), ("y", FieldVal.str "keep")],
            [("id", FieldVal.str "b"), ("x", FieldVal.num 9)]] "a" [("x", FieldVal.num 2)] =
        Except.ok (dbPut
          [[("id", FieldVal.str "a"), ("x", FieldVal.num 1), ("y", FieldVal.str "keep")],
            [("id", FieldVal.str "b"), ("x", FieldVal.num 9)]]
          (updateMerge
            [("id", FieldVal.str "a"), ("x", FieldVal.num 1), ("y", FieldVal.str "keep")]
            [("x", FieldVal.num 2)] "a")) ∧
      (updateMerge [("id", FieldVal.str "a"), ("x", FieldVal.num 1), ("y", FieldVal.str "keep")]
          [("x", FieldVal.num 2)] "a").lookup "x" = some (FieldVal.num 2) ∧
      (updateMerge [("id", FieldVal.str "a"), ("x", FieldVal.num 1), ("y", FieldVal.str "keep")]
          [("x", FieldVal.num 2)] "a").lookup "y" =
        ([("id", FieldVal.str "a"), ("x", FieldVal.num 1), ("y", FieldVal.str "keep")] :
          Rec).lookup "y" ∧
      (updateMerge [("id", FieldVal.str "a"), ("x", FieldVal.num 1), ("y", FieldVal.str "keep")]
          [("x", FieldVal.num 2)] "a").lookup "id" = some (FieldVal.str "a") ∧
      [("id", FieldVal.str "b"), ("x", FieldVal.num 9)] ∈ dbPut
        [[("id", FieldVal.str "a"), ("x", FieldVal.num 1), ("y", FieldVal.str "keep")],
          [("id", FieldVal.str "b"), ("x", FieldVal.num 9)]]
        (updateMerge [("id", FieldVal.str "a"), ("x", FieldVal.num 1), ("y", FieldVal.str "keep")]
          [("x", FieldVal.num 2)] "a") := by
  have h := adapterUpdate_frame
    [[("id", FieldVal.str "a"), ("x", FieldVal.num 1), ("y", FieldVal.str "keep")],
      [("id", FieldVal.str "b"), ("x", FieldVal.num 9)]] "a" [("x", FieldVal.num 2)]
    [("id", FieldVal.str "a"), ("x", FieldVal.num 1), ("y", FieldVal.str "keep")]
    (by decide) (by decide)
  exact ⟨h.1, h.2.1 "x" (FieldVal.num 2) (by decide) (by decide),
    h.2.2.1 "y" (by decide) (by decide), h.2.2.2.1,
    h.2.2.2.2 [("id", FieldVal.str "b"), ("x", FieldVal.num 9)] (by decide) (by decide)⟩

/-! ## Claim C10 -/

/-- C10 (implicit): the adapter's update can never change a record's
identifier — even when the partial itself contains an id field with a
different value, the merge re-imposes the id argument last, so the
written record's id field equals the id argument and the multiset of
identifiers in the collection is unchanged by every successful update. -/
theorem adapterUpdate_preserves_id (store : List Rec) (id : String) (item existing : Rec)
    (h : dbGet store id = some existing) :
    (updateMerge existing item id).lookup "id" = some (FieldVal.str id) ∧
      adapterUpdate store id item = Except.ok (dbPut store (updateMerge existing item id)) ∧
      (dbPut store (updateMerge existing item id)).map recKey = store.map recKey := by
  have hkm : recKey (updateMerge existing item id) = some (FieldVal.str id) :=
    recKey_updateMerge existing item id
  refine ⟨lookup_setField_self _ _ _, by rw [adapterUpdate, h], ?_⟩
  have hmem : existing ∈ store := by
    rw [dbGet] at h
    exact List.mem_of_find?_eq_some h
  have hexkey : recKey existing = some (FieldVal.str id) := by
    rw [dbGet] at h
    have := List.find?_some h
    simpa using this
  have hany : store.any (fun r0 => decide (recKey r0 = recKey (updateMerge existing item id))) :=
    by
    rw [List.any_eq_true]
    exact ⟨existing, hmem, by simp [hkm, hexkey]⟩
  rw [dbPut, if_pos hany, List.map_map]
  apply List.map_congr_left
  intro r _
  by_cases hk : recKey r = recKey (updateMerge existing item id)
  · simp only [Function.comp_apply, if_pos hk]
    rw [hkm] at hk
    rw [hkm, hk]
  · simp only [Function.comp_apply, if_neg hk]

/-- Witness for C10 at a concrete store whose partial tries to overwrite
the id field. -/
theorem adapterUpdate_preserves_id_witness :
    (updateMerge [("id", FieldVal.str "a"), ("x", FieldVal.num 1)]
          [("id", FieldVal.str "z")] "a").lookup "id" = some (FieldVal.str "a") ∧
      adapterUpdate [[("id", FieldVal.str "a"), ("x", FieldVal.num 1)]] "a"
          [("id", FieldVal.str "z")] =
        Except.ok (dbPut [[("id", FieldVal.str "a"), ("x", FieldVal.num 1)]]
          (updateMerge [("id", FieldVal.str "a"), ("x", FieldVal.num 1)]
            [("id", FieldVal.str "z")] "a")) ∧
      (dbPut [[("id", FieldVal.str "a"), ("x", FieldVal.num 1)]]
          (updateMerge [("id", FieldVal.str "a"), ("x", FieldVal.num 1)]
            [("id", FieldVal.str "z")] "a")).map recKey =
        [[("id", FieldVal.str "a"), ("x", FieldVal.num 1)]].map recKey :=
  adapterUpdate_preserves_id [[("id", FieldVal.str "a"), ("x", FieldVal.num 1)]] "a"
    [("id", FieldVal.str "z")] [("id", FieldVal.str "a"), ("x", FieldVal.num 1)] (by decide)

/-! ## Claim C2 -/

theorem foldl_add_amount (l : List Transaction) (a : Rat) :
    l.foldl (fun sum t => sum + t.amount) a = a + (l.map Transaction.amount).sum := by
  induction l generalizing a with
  | nil => simp
  | cons t l ih =>
    simp only [List.foldl_cons, List.map_cons, List.sum_cons]
    rw [ih (a + t.amount)]
    ring

theorem sum_nonpos_of_neg (l : List Rat) (h : ∀ x ∈ l, x < 0) : l.sum ≤ 0 := by
  induction l with
  | nil => simp
  | cons x xs ih =>
    have hx := h x (List.mem_cons_self x xs)
    have hxs := ih fun z hz => h z (List.mem_cons_of_mem x hz)
    simp only [List.sum_cons]
    linarith

theorem abs_sum_of_neg (l : List Rat) (h : ∀ x ∈ l, x < 0) :
    |l.sum| = (l.map fun x => |x|).sum := by
  induction l with
  | nil => simp
  | cons x xs ih =>
    have hx := h x (List.mem_cons_self x xs)
    have hxs : ∀ z ∈ xs, z < 0 := fun z hz => h z (List.mem_cons_of_mem x hz)
    have hsum := sum_nonpos_of_neg xs hxs
    simp only [List.sum_cons, List.map_cons]
    rw [abs_of_nonpos (by linarith), ← ih hxs, abs_of_nonpos hsum, abs_of_neg hx]
    ring

/-- C2: calculateBudgetRemaining returns the limit minus the sum of the
absolute amounts over exactly the transactions whose date starts with the
budget's month, whose category equals the budget's category exactly
(case-sensitively), and whose amount is negative; in particular a
transaction whose category differs from the budget's only in letter case
contributes nothing to the spent figure, even though the duplicate check
elsewhere is case-insensitive. -/
theorem calculateBudgetRemaining_spec (budget : Budget) (ts : List Transaction) :
    calculateBudgetRemaining budget ts =
        budget.limit -
          ((ts.filter fun t =>
              sStartsWith t.date budget.month && decide (t.category = budget.category) &&
                decide (t.amount < 0)).map fun t => |t.amount|).sum ∧
      ∀ t : Transaction, sLower t.category = sLower budget.category →
        t.category ≠ budget.category →
        calculateBudgetRemaining budget (t :: ts) = calculateBudgetRemaining budget ts := by
  constructor
  · rw [calculateBudgetRemaining]
    have hneg : ∀ x ∈ (ts.filter fun t =>
        sStartsWith t.date budget.month && decide (t.category = budget.category) &&
          decide (t.amount < 0)).map Transaction.amount, x < 0 := by
      intro x hx
      rw [List.mem_map] at hx
      obtain ⟨t, ht, rfl⟩ := hx
      have := List.of_mem_filter ht
      simp only [Bool.and_eq_true, decide_eq_true_eq] at this
      exact this.2
    rw [foldl_add_amount, zero_add, abs_sum_of_neg _ hneg, List.map_map]
    rfl
  · intro t hlow hne
    rw [calculateBudgetRemaining, calculateBudgetRemaining]
    rw [List.filter_cons_of_neg]
    simp [hne]

/-- Witness for C2: a transaction categorized groceries in lower case
does not change the remaining figure of a budget categorized Groceries,
and the remaining figure is the limit minus the matching expense sum. -/
theorem calculateBudgetRemaining_spec_witness :
    calculateBudgetRemaining ⟨"b1", "2025-01", "Groceries", 400⟩
        (⟨"t2", "2025-01-20", -10, "groceries", none⟩ ::
          [⟨"t1", "2025-01-15", -(455 : Rat) / 10, "Groceries", none⟩]) =
      calculateBudgetRemaining ⟨"b1", "2025-01", "Groceries", 400⟩
        [⟨"t1", "2025-01-15", -(455 : Rat) / 10, "Groceries", none⟩] :=
  (calculateBudgetRemaining_spec ⟨"b1", "2025-01", "Groceries", 400⟩
    [⟨"t1", "2025-01-15", -(455 : Rat) / 10, "Groceries", none⟩]).2
    ⟨"t2", "2025-01-20", -10, "groceries", none⟩ (by decide) (by decide)

/-! ## Claim C8 -/

/-- C8: for every attempt-outcome sequence passed to retryWithBackoff
with parameters maxRetries and initialDelay: a failure not classified as
transient (by lowercased-message substring match against the
network/timeout/connection word list modelled in isTransientError) is
re-thrown immediately with no further attempt and no wait; a transient
failure on attempt k with retries left is followed by a wait of
initialDelay times 2 to the k milliseconds and a retry; at most
maxRetries additional attempts are made, and when attempts are exhausted
the last error itself is re-thrown, not swallowed or replaced. -/
theorem retryWithBackoff_spec {T : Type} (outcomes : Nat → Except JsError T)
    (maxRetries initialDelay : Nat) :
    retryWithBackoff outcomes maxRetries initialDelay =
        retryGo outcomes maxRetries initialDelay 0 ∧
      (∀ attempt e, outcomes attempt = Except.error e → isTransientError e = false →
        retryGo outcomes maxRetries initialDelay attempt = ⟨Except.error e, 1, []⟩) ∧
      (∀ attempt e, outcomes attempt = Except.error e → isTransientError e = true →
        attempt < maxRetries →
        retryGo outcomes maxRetries initialDelay attempt =
          ⟨(retryGo outcomes maxRetries initialDelay (attempt + 1)).result,
            (retryGo outcomes maxRetries initialDelay (attempt + 1)).calls + 1,
            initialDelay * 2 ^ attempt ::
              (retryGo outcomes maxRetries initialDelay (attempt + 1)).waits⟩) ∧
      (∀ attempt e, outcomes attempt = Except.error e → isTransientError e = true →
        maxRetries ≤ attempt →
        retryGo outcomes maxRetries initialDelay attempt = ⟨Except.error e, 1, []⟩) := by
  refine ⟨rfl, ?_, ?_, ?_⟩
  · intro attempt e he ht
    rw [retryGo, he]
    simp [ht]
  · intro attempt e he ht hlt
    rw [retryGo, he]
    simp [ht, Nat.not_le_of_lt hlt]
  · intro attempt e he ht hge
    rw [retryGo, he]
    simp [ht, hge]

/-- Witness for C8: on a sequence whose first failure message is not
transient the error is re-thrown at once; on an always-transient network
failure with 2 retries the trace shows the two backoff waits of 100 and
200 milliseconds before the final re-throw of the last error. -/
theorem retryWithBackoff_spec_witness :
    retryGo (fun _ => (Except.error ⟨"disk corrupt"⟩ : Except JsError Nat)) 2 100 0 =
        ⟨Except.error ⟨"disk corrupt"⟩, 1, []⟩ ∧
      retryGo (fun _ => (Except.error ⟨"network down"⟩ : Except JsError Nat)) 2 100 2 =
        ⟨Except.error ⟨"network down"⟩, 1, []⟩ ∧
      retryWithBackoff (fun _ => (Except.error ⟨"network down"⟩ : Except JsError Nat)) 2 100 =
        ⟨Except.error ⟨"network down"⟩, 3, [100, 200]⟩ := by
  have h2 := retryWithBackoff_spec (fun _ => (Except.error ⟨"network down"⟩ : Except JsError Nat))
    2 100
  have hnt : isTransientError ⟨"disk corrupt"⟩ = false := by decide
  have htr : isTransientError ⟨"network down"⟩ = true := by decide
  have hb :=
    retryWithBackoff_spec (fun _ => (Except.error ⟨"disk corrupt"⟩ : Except JsError Nat)) 2 100
  refine ⟨hb.2.1 0 ⟨"disk corrupt"⟩ rfl hnt, h2.2.2.2 2 ⟨"network down"⟩ rfl htr (by decide), ?_⟩
  have hs2 := h2.2.2.2 2 ⟨"network down"⟩ rfl htr (by decide)
  have hs1 := h2.2.2.1 1 ⟨"network down"⟩ rfl htr (by decide)
  have hs0 := h2.2.2.1 0 ⟨"network down"⟩ rfl htr (by decide)
  rw [h2.1, hs0, hs1, hs2]
  norm_num

/-! ## Claim C9

The fail-soft claim states that every calculation engine function
returns its safe neutral value on malformed input instead of raising.
The source comment on the catch branch of calculateBudgetRemaining
(return full budget on error, safe default) and the specification state
that intent, but the catch handler itself evaluates budget.limit, which
re-throws a TypeError whenever the budget argument itself is malformed
(null, undefined, or any primitive), so the call raises instead of
returning the limit: the code contradicts its own documented fail-soft
policy.  With a well-formed budget the non-array guard does return the
limit, as the second conjunct shows. -/

/-- C9: at the failing input budget = null, transactions = [], the
dynamic translation of calculateBudgetRemaining raises a TypeError from
its own catch handler instead of returning the budget's original limit,
while the same function with a well-formed budget and a non-array
transactions argument returns the limit as the fail-soft policy
documents. -/
theorem calculateBudgetRemainingDyn_null_raises :
    calculateBudgetRemainingDyn JVal.null (JVal.arr []) =
        Except.error "TypeError: Cannot read properties of null (reading limit)" ∧
      calculateBudgetRemainingDyn
          (JVal.obj [("month", JVal.str "2025-01"), ("category", JVal.str "Food"),
            ("limit", JVal.num 400)])
          (JVal.str "not an array") =
        Except.ok (JVal.num 400) :=
  ⟨rfl, rfl⟩

/-! ## Claim C3

The output of calculateCategoryTotals is weakly descending by total, but
not strictly: two categories with equal totals appear in the output with
the same total, so the claim's strictly-descending reading fails.  The
amended claim proves descending order (each entry's total at least the
next entry's) together with the sum equation. -/

theorem mapSet_valuesSum (m : List (String × Rat)) (k : String) (v : Rat) :
    ((mapSet m k v).map Prod.snd).sum = (m.map Prod.snd).sum + v - mapGet m k := by
  induction m with
  | nil => simp [mapSet, mapGet]
  | cons p rest ih =>
    obtain ⟨k0, v0⟩ := p
    by_cases h : k0 = k
    · subst h
      have hg : mapGet ((k0, v0) :: rest) k0 = v0 := by
        simp [mapGet, lookup_cons_ite]
      rw [hg]
      simp [mapSet]
      ring
    · have hg : mapGet ((k0, v0) :: rest) k = mapGet rest k := by
        simp [mapGet, lookup_cons_ite, h]
      rw [hg]
      simp only [mapSet, if_neg h, List.map_cons, List.sum_cons]
      rw [ih]
      ring

theorem foldl_mapSet_sum (l : List Transaction) : ∀ m : List (String × Rat),
    ((l.foldl (fun m t => mapSet m t.category (mapGet m t.category + |t.amount|)) m).map
        Prod.snd).sum = (m.map Prod.snd).sum + (l.map fun t => |t.amount|).sum := by
  induction l with
  | nil => intro m; simp
  | cons t l ih =>
    intro m
    simp only [List.foldl_cons, List.map_cons, List.sum_cons]
    rw [ih, mapSet_valuesSum]
    ring

/-- C3 (amended): the output of calculateCategoryTotals is sorted in
descending order by total — every entry's total is greater than or equal
to the next entry's (strictness fails when two categories tie) — and the
sum of all totals equals the sum of absolute amounts over the
negative-amount transactions. -/
theorem calculateCategoryTotals_sorted_sum (ts : List Transaction) :
    (calculateCategoryTotals ts).Sorted ctGE ∧
      ((calculateCategoryTotals ts).map CategoryTotal.total).sum =
        ((ts.filter fun t => decide (t.amount < 0)).map fun t => |t.amount|).sum := by
  constructor
  · haveI : IsTotal CategoryTotal ctGE := ⟨fun a b => le_total b.total a.total⟩
    haveI : IsTrans CategoryTotal ctGE := ⟨fun _ _ _ h1 h2 => le_trans h2 h1⟩
    exact List.sorted_insertionSort ctGE _
  · have hperm := List.perm_insertionSort ctGE
      (((ts.filter fun t => decide (t.amount < 0)).foldl
        (fun m t => mapSet m t.category (mapGet m t.category + |t.amount|)) []).map
        fun p => CategoryTotal.mk p.1 p.2)
    have h1 := List.Perm.sum_eq (List.Perm.map CategoryTotal.total hperm)
    rw [calculateCategoryTotals]
    rw [h1, List.map_map]
    have h2 : (CategoryTotal.total ∘ fun p : String × Rat => CategoryTotal.mk p.1 p.2) =
        Prod.snd := rfl
    rw [h2, foldl_mapSet_sum]
    simp

/-- Counterexample to C3 as stated: on two expenses of equal size in the
categories A and B the output totals are 5 and 5, which are not strictly
descending (the first entry's total is not strictly greater than the
next). -/
theorem calculateCategoryTotals_not_strictly_descending :
    ¬ (((calculateCategoryTotals
        [⟨"t1", "2025-01-01", -5, "A", none⟩, ⟨"t2", "2025-01-02", -5, "B", none⟩]).map
        CategoryTotal.total).Chain' fun a b => a > b) := by
  have he : calculateCategoryTotals
      [⟨"t1", "2025-01-01", -5, "A", none⟩, ⟨"t2", "2025-01-02", -5, "B", none⟩] =
      [⟨"A", 5⟩, ⟨"B", 5⟩] := by
    rw [calculateCategoryTotals]
    norm_num [List.filter_cons, mapSet, mapGet, lookup_cons_ite, List.insertionSort,
      List.orderedInsert, ctGE]
    simp
  rw [he]
  norm_num [List.Chain']

/-! ## Claim C1 -/

theorem dropWhile_head_false {p : Char → Bool} : ∀ (l : List Char) (a : Char) (as : List Char),
    l.dropWhile p = a :: as → p a = false := by
  intro l
  induction l with
  | nil => intro a as h; simp at h
  | cons x xs ih =>
    intro a as h
    by_cases hx : p x = true
    · rw [List.dropWhile_cons_of_pos hx] at h
      exact ih a as h
    · rw [List.dropWhile_cons_of_neg hx] at h
      cases h
      simpa using hx

theorem dropWhile_idem {p : Char → Bool} (l : List Char) :
    (l.dropWhile p).dropWhile p = l.dropWhile p := by
  cases hd : l.dropWhile p with
  | nil => rfl
  | cons a as =>
    have ha := dropWhile_head_false l a as hd
    rw [List.dropWhile_cons_of_neg (by simp [ha])]

/-- JavaScript trim is idempotent, so the duplicate check's second trim
of an already-trimmed category is the identity. -/
theorem sTrim_sTrim (s : String) : sTrim (sTrim s) = sTrim s := by
  rw [sTrim, sTrim]
  congr 1
  show ((((((s.data.dropWhile Char.isWhitespace).reverse.dropWhile
      Char.isWhitespace).reverse : List Char).dropWhile
        Char.isWhitespace).reverse.dropWhile Char.isWhitespace).reverse) =
    ((s.data.dropWhile Char.isWhitespace).reverse.dropWhile Char.isWhitespace).reverse
  have h1 : (((s.data.dropWhile Char.isWhitespace).reverse.dropWhile
      Char.isWhitespace).reverse : List Char).dropWhile Char.isWhitespace =
      ((s.data.dropWhile Char.isWhitespace).reverse.dropWhile Char.isWhitespace).reverse := by
    obtain ⟨pre, hpre⟩ :=
      List.dropWhile_suffix (l := (s.data.dropWhile Char.isWhitespace).reverse)
        Char.isWhitespace
    have hA : s.data.dropWhile Char.isWhitespace =
        ((s.data.dropWhile Char.isWhitespace).reverse.dropWhile
          Char.isWhitespace).reverse ++ pre.reverse := by
      have h2 := congrArg List.reverse hpre
      simpa [List.reverse_append] using h2.symm
    cases hT : ((s.data.dropWhile Char.isWhitespace).reverse.dropWhile
        Char.isWhitespace).reverse with
    | nil => simp
    | cons a as =>
      rw [hT] at hA
      have ha : Char.isWhitespace a = false :=
        dropWhile_head_false s.data a (as ++ pre.reverse) (by simpa using hA)
      rw [List.dropWhile_cons_of_neg (by simp [ha])]
  rw [h1, List.reverse_reverse, dropWhile_idem]

/-- C1: the Budget Service enforces at most one budget per (month,
category) pair, compared case-insensitively on the trimmed category.
First conjunct: for valid budget data colliding with a stored budget,
addBudget throws the duplicate ValidationError — no store transition
happens, so the stored budget set is unchanged.  Second conjunct:
updateBudget likewise rejects when the merged month and category collide
with any other stored budget (the budget under update excluded by
identifier).  Third conjunct: updating a budget to a non-colliding
(month, category) pair succeeds. -/
theorem budgetService_unique_month_category :
    (∀ (store : List Budget) (newId : String) (data : BudgetData) (b : Budget),
      validateBudgetData data = Except.ok () → b ∈ store → b.month = data.month →
      sLower b.category = sLower (sTrim data.category) →
      addBudget store newId data =
        Except.error (SvcError.validation
          ("A budget for " ++ sTrim data.category ++ " in " ++ data.month ++
            " already exists"))) ∧
    (∀ (store : List Budget) (id : String) (data : BudgetPatch) (existing other : Budget),
      store.find? (fun b => decide (b.id = id)) = some existing →
      (data.month.isSome ∨ data.category.isSome) →
      validateBudgetData
        ⟨data.month.getD existing.month, data.category.getD existing.category,
          data.limit.getD existing.limit⟩ = Except.ok () →
      other ∈ store → other.id ≠ id →
      other.month = data.month.getD existing.month →
      sLower other.category = sLower (sTrim (data.category.getD existing.category)) →
      updateBudget store id data =
        Except.error (SvcError.validation
          ("A budget for " ++ data.category.getD existing.category ++ " in " ++
            data.month.getD existing.month ++ " already exists"))) ∧
    (∀ (store : List Budget) (id : String) (data : BudgetPatch) (existing : Budget),
      id ≠ "" →
      store.find? (fun b => decide (b.id = id)) = some existing →
      (data.month.isSome ∨ data.category.isSome) →
      validateBudgetData
        ⟨data.month.getD existing.month, data.category.getD existing.category,
          data.limit.getD existing.limit⟩ = Except.ok () →
      (∀ b ∈ store, b.id ≠ id →
        ¬(b.month = data.month.getD existing.month ∧
          sLower b.category = sLower (sTrim (data.category.getD existing.category)))) →
      ∃ store', updateBudget store id data = Except.ok store') := by
  refine ⟨?_, ?_, ?_⟩
  · intro store newId data b hval hb hbm hbc
    rw [addBudget, hval]
    have hdup : isDuplicateBudget store data.month (sTrim data.category) = true := by
      rw [isDuplicateBudget, List.any_eq_true]
      refine ⟨b, hb, ?_⟩
      rw [sTrim_sTrim]
      simp [hbm, hbc]
    simp [hdup]
  · intro store id data existing other hfind hsome hval hmem hne hom hoc
    rw [updateBudget]
    have hne2 : ¬(data.month = none ∧ data.category = none ∧ data.limit = none) := by
      rcases hsome with h | h
      · intro hc
        rw [hc.1] at h
        simp at h
      · intro hc
        rw [hc.2.1] at h
        simp at h
    have hdup : isDuplicateBudget store (data.month.getD existing.month)
        (data.category.getD existing.category) (some id) = true := by
      rw [isDuplicateBudget, List.any_eq_true]
      refine ⟨other, hmem, ?_⟩
      have hexcl : ¬(¬id = "" ∧ other.id = id) := fun hc => hne hc.2
      show (if ¬id = "" ∧ other.id = id then false
        else decide (other.month = data.month.getD existing.month) &&
          decide (sLower other.category =
            sLower (sTrim (data.category.getD existing.category)))) = true
      rw [if_neg hexcl]
      simp [hom, hoc]
    have hor : (data.month.isSome || data.category.isSome) = true := by
      rcases hsome with h | h <;> simp [h]
    simp [updateBudget, hne2, hfind, hval, hor, hdup]
  · intro store id data existing hid hfind hsome hval hnc
    rw [updateBudget]
    have hne2 : ¬(data.month = none ∧ data.category = none ∧ data.limit = none) := by
      rcases hsome with h | h
      · intro hc
        rw [hc.1] at h
        simp at h
      · intro hc
        rw [hc.2.1] at h
        simp at h
    have hdup : isDuplicateBudget store (data.month.getD existing.month)
        (data.category.getD existing.category) (some id) = false := by
      rw [isDuplicateBudget]
      rw [Bool.eq_false_iff]
      intro hany
      rw [List.any_eq_true] at hany
      obtain ⟨b, hbmem, hbp⟩ := hany
      have hbp2 : (if ¬id = "" ∧ b.id = id then false
          else decide (b.month = data.month.getD existing.month) &&
            decide (sLower b.category =
              sLower (sTrim (data.category.getD existing.category)))) = true := hbp
      by_cases hbid : b.id = id
      · rw [if_pos ⟨hid, hbid⟩] at hbp2
        exact Bool.false_ne_true hbp2
      · rw [if_neg (fun hc : ¬id = "" ∧ b.id = id => hbid hc.2)] at hbp2
        simp only [Bool.and_eq_true, decide_eq_true_eq] at hbp2
        exact hnc b hbmem hbid ⟨hbp2.1, hbp2.2⟩
    refine ⟨store.map fun b => if b.id = id then
      ⟨id, (data.month).getD existing.month,
        (data.category.map sTrim).getD existing.category,
        (data.limit).getD existing.limit⟩ else b, ?_⟩
    simp [updateBudget, hne2, hfind, hval, hdup, adapterUpdateBudget]

/-- Witness for C1: adding a budget for groceries against a stored
Groceries budget in the same month fails with the duplicate error;
updating the Rent budget's category to groceries fails the same way; and
updating it to Utilities succeeds. -/
theorem budgetService_unique_month_category_witness :
    addBudget [⟨"b1", "2025-01", "Groceries", 400⟩] "b2" ⟨"2025-01", "groceries", 100⟩ =
        Except.error (SvcError.validation
          "A budget for groceries in 2025-01 already exists") ∧
      updateBudget [⟨"b1", "2025-01", "Groceries", 400⟩, ⟨"b2", "2025-01", "Rent", 900⟩]
          "b2" { category := some "groceries" } =
        Except.error (SvcError.validation
          "A budget for groceries in 2025-01 already exists") ∧
      ∃ store', updateBudget [⟨"b1", "2025-01", "Groceries", 400⟩,
          ⟨"b2", "2025-01", "Rent", 900⟩] "b2" { category := some "Utilities" } =
        Except.ok store' := by
  obtain ⟨h1, h2, h3⟩ := budgetService_unique_month_category
  refine ⟨?_, ?_, ?_⟩
  · exact h1 [⟨"b1", "2025-01", "Groceries", 400⟩] "b2" ⟨"2025-01", "groceries", 100⟩
      ⟨"b1", "2025-01", "Groceries", 400⟩ (by decide) (by decide) (by decide) (by decide)
  · exact h2 [⟨"b1", "2025-01", "Groceries", 400⟩, ⟨"b2", "2025-01", "Rent", 900⟩] "b2"
      { category := some "groceries" } ⟨"b2", "2025-01", "Rent", 900⟩
      ⟨"b1", "2025-01", "Groceries", 400⟩ (by decide) (by decide) (by decide) (by decide)
      (by decide) (by decide) (by decide)
  · exact h3 [⟨"b1", "2025-01", "Groceries", 400⟩, ⟨"b2", "2025-01", "Rent", 900⟩] "b2"
      { category := some "Utilities" } ⟨"b2", "2025-01", "Rent", 900⟩ (by decide) (by decide)
      (by decide) (by decide) (by decide)

/-! ## Claim C4 -/

theorem isLeapYear_iff (z : Nat) :
    isLeapYear z = true ↔ z % 4 = 0 ∧ (z % 100 ≠ 0 ∨ z % 400 = 0) := by
  simp [isLeapYear]

theorem daysInMonth_pos (y m : Nat) : 1 ≤ daysInMonth y m := by
  rw [daysInMonth.eq_def]
  split
  all_goals first
    | (split <;> omega)
    | omega

set_option maxHeartbeats 1000000 in
theorem yearDays_succ (z : Nat) (hz : 1 ≤ z) :
    yearDays (z + 1) = yearDays z + 365 + (if isLeapYear z then 1 else 0) := by
  by_cases hL : z % 4 = 0 ∧ (z % 100 ≠ 0 ∨ z % 400 = 0)
  · rw [if_pos ((isLeapYear_iff z).mpr hL)]
    rw [yearDays, yearDays]
    omega
  · rw [if_neg (fun hc => hL ((isLeapYear_iff z).mp hc))]
    rw [yearDays, yearDays]
    omega

theorem month_step (y m : Nat) (h2 : 2 ≤ m) (h12 : m ≤ 12) :
    monthOffset (m - 1) + (if 2 < m - 1 && isLeapYear y then 1 else 0) +
        daysInMonth y (m - 1) =
      monthOffset m + (if 2 < m && isLeapYear y then 1 else 0) := by
  cases hL : isLeapYear y <;> interval_cases m <;> simp [monthOffset, daysInMonth, hL]

theorem yearDays_pos_iff (y : Nat) (hy : 1 ≤ y) : 0 < yearDays y ↔ 2 ≤ y := by
  constructor
  · intro h
    by_contra hc
    have : y = 1 := by omega
    subst this
    simp [yearDays] at h
  · intro h
    rw [yearDays]
    have h4 : (y - 1) / 100 ≤ (y - 1) / 4 := Nat.div_le_div_left (by omega) (by omega)
    have h5 : 1 ≤ y - 1 := by omega
    omega

theorem prevDay_spec (y m d : Nat) (hv : ValidDate y m d) (hpos : 0 < toDayNumber y m d) :
    ValidDate (prevDay (y, m, d)).1 (prevDay (y, m, d)).2.1 (prevDay (y, m, d)).2.2 ∧
      toDayNumber (prevDay (y, m, d)).1 (prevDay (y, m, d)).2.1 (prevDay (y, m, d)).2.2 + 1 =
        toDayNumber y m d := by
  obtain ⟨hy, hm1, hm12, hd1, hdm⟩ := hv
  by_cases hd : 1 < d
  · rw [prevDay, if_pos hd]
    dsimp only
    refine ⟨⟨hy, hm1, hm12, by omega, by omega⟩, ?_⟩
    simp only [toDayNumber]
    omega
  · have hd0 : d = 1 := by omega
    subst hd0
    by_cases hm : 1 < m
    · rw [prevDay, if_neg hd, if_pos hm]
      dsimp only
      have hdp := daysInMonth_pos y (m - 1)
      refine ⟨⟨hy, by omega, by omega, hdp, le_refl _⟩, ?_⟩
      have hstep := month_step y m (by omega) hm12
      simp only [toDayNumber]
      omega
    · have hm0 : m = 1 := by omega
      subst hm0
      rw [prevDay, if_neg hd, if_neg hm]
      dsimp only
      have hpos2 : 0 < yearDays y := by
        simp only [toDayNumber, monthOffset] at hpos
        simpa using hpos
      have hy2 : 2 ≤ y := (yearDays_pos_iff y hy).mp hpos2
      have hys := yearDays_succ (y - 1) (by omega)
      have hyy : y - 1 + 1 = y := by omega
      rw [hyy] at hys
      have h31 : daysInMonth (y - 1) 12 = 31 := rfl
      refine ⟨⟨by omega, by omega, by omega, by omega, by omega⟩, ?_⟩
      simp only [toDayNumber, monthOffset]
      norm_num
      omega

theorem subDays_spec : ∀ (k y m d : Nat), ValidDate y m d → k ≤ toDayNumber y m d →
    ValidDate (subDays (y, m, d) k).1 (subDays (y, m, d) k).2.1 (subDays (y, m, d) k).2.2 ∧
      toDayNumber (subDays (y, m, d) k).1 (subDays (y, m, d) k).2.1
          (subDays (y, m, d) k).2.2 + k = toDayNumber y m d := by
  intro k
  induction k with
  | zero => intro y m d hv _; exact ⟨hv, rfl⟩
  | succ k ih =>
    intro y m d hv hk
    have hpos : 0 < toDayNumber y m d := by omega
    obtain ⟨hpv, hpe⟩ := prevDay_spec y m d hv hpos
    have hsub : subDays (y, m, d) (k + 1) =
        subDays ((prevDay (y, m, d)).1, (prevDay (y, m, d)).2.1,
          (prevDay (y, m, d)).2.2) k := by
      rw [subDays]
    rw [hsub]
    have hk2 : k ≤ toDayNumber (prevDay (y, m, d)).1 (prevDay (y, m, d)).2.1
        (prevDay (y, m, d)).2.2 := by omega
    obtain ⟨h1, h2⟩ := ih (prevDay (y, m, d)).1 (prevDay (y, m, d)).2.1
      (prevDay (y, m, d)).2.2 hpv hk2
    exact ⟨h1, by omega⟩

theorem weekDiff_eq_mod (y m d : Nat) :
    (if dayOfWeekNum y m d = 0 then 6 else dayOfWeekNum y m d - 1) =
      toDayNumber y m d % 7 := by
  rw [dayOfWeekNum]
  split <;> omega

theorem getGroupKey_week_monday (date : String) (y m d : Nat)
    (hp : parseIsoDate date = some (y, m, d)) (hval : ValidDate y m d) :
    ∃ my mm md, getGroupKey date GroupBy.week = some (formatYmd my mm md) ∧
      ValidDate my mm md ∧ dayOfWeekNum my mm md = 1 := by
  have hgk : getGroupKey date GroupBy.week =
      some (formatYmd (subDays (y, m, d) (toDayNumber y m d % 7)).1
        (subDays (y, m, d) (toDayNumber y m d % 7)).2.1
        (subDays (y, m, d) (toDayNumber y m d % 7)).2.2) := by
    rw [getGroupKey, hp]
    show some (formatYmd
        (subDays (y, m, d) (if dayOfWeekNum y m d = 0 then 6
          else dayOfWeekNum y m d - 1)).1
        (subDays (y, m, d) (if dayOfWeekNum y m d = 0 then 6
          else dayOfWeekNum y m d - 1)).2.1
        (subDays (y, m, d) (if dayOfWeekNum y m d = 0 then 6
          else dayOfWeekNum y m d - 1)).2.2) =
      some (formatYmd (subDays (y, m, d) (toDayNumber y m d % 7)).1
        (subDays (y, m, d) (toDayNumber y m d % 7)).2.1
        (subDays (y, m, d) (toDayNumber y m d % 7)).2.2)
    rw [weekDiff_eq_mod]
  obtain ⟨hv2, he2⟩ := subDays_spec (toDayNumber y m d % 7) y m d hval
    (Nat.mod_le _ _)
  refine ⟨_, _, _, hgk, hv2, ?_⟩
  rw [dayOfWeekNum]
  omega

theorem parseIsoDate_valid (s : String) (y m d : Nat)
    (hp : parseIsoDate s = some (y, m, d)) :
    1 ≤ m ∧ m ≤ 12 ∧ 1 ≤ d ∧ d ≤ daysInMonth y m := by
  rw [parseIsoDate] at hp
  split at hp
  · dsimp only at hp
    split at hp
    · split at hp
      · rename_i hcond
        injection hp with hp2
        rw [Prod.ext_iff] at hp2
        obtain ⟨hp3, hp4⟩ := hp2
        rw [Prod.ext_iff] at hp4
        obtain ⟨hp5, hp6⟩ := hp4
        dsimp only at hp3 hp5 hp6
        subst hp3
        subst hp5
        subst hp6
        exact hcond
      · exact absurd hp (by simp)
    · exact absurd hp (by simp)
  · exact absurd hp (by simp)

theorem mapSet_keys (m : List (String × Rat)) (k : String) (v : Rat) :
    ∀ k2 ∈ (mapSet m k v).map Prod.fst, k2 ∈ m.map Prod.fst ∨ k2 = k := by
  induction m with
  | nil =>
    intro k2 h2
    simp [mapSet] at h2
    right; exact h2
  | cons p rest ih =>
    intro k2 h2
    obtain ⟨k0, v0⟩ := p
    simp only [mapSet] at h2
    by_cases h : k0 = k
    · rw [if_pos h] at h2
      simp only [List.map_cons, List.mem_cons] at h2 ⊢
      tauto
    · rw [if_neg h] at h2
      simp only [List.map_cons, List.mem_cons] at h2 ⊢
      rcases h2 with h2 | h2
      · tauto
      · rcases ih k2 h2 with h3 | h3 <;> tauto

theorem spendFold_keys (g : GroupBy) : ∀ (l : List Transaction) (acc mp : List (String × Rat)),
    List.foldlM (m := Option) (fun mp t => (getGroupKey t.date g).map
      fun k => mapSet mp k (mapGet mp k + |t.amount|)) acc l = some mp →
    ∀ k ∈ mp.map Prod.fst, k ∈ acc.map Prod.fst ∨ ∃ t ∈ l, getGroupKey t.date g = some k := by
  intro l
  induction l with
  | nil =>
    intro acc mp h k hk
    simp only [List.foldlM_nil] at h
    cases h
    left; exact hk
  | cons t l ih =>
    intro acc mp h k hk
    rw [List.foldlM_cons] at h
    cases hg : getGroupKey t.date g with
    | none =>
      rw [hg] at h
      simp at h
    | some k0 =>
      rw [hg] at h
      simp only [Option.map_some', Option.bind_eq_bind, Option.some_bind] at h
      rcases ih (mapSet acc k0 (mapGet acc k0 + |t.amount|)) mp h k hk with h2 | h2
      · rcases mapSet_keys acc k0 (mapGet acc k0 + |t.amount|) k h2 with h3 | h3
        · left; exact h3
        · right
          exact ⟨t, List.mem_cons_self t l, by rw [hg, h3]⟩
      · right
        obtain ⟨t2, ht2, he⟩ := h2
        exact ⟨t2, List.mem_cons_of_mem t ht2, he⟩

/-- C4: for every transaction list and grouping, the output of
calculateSpendingOverTime is sorted ascending by bucket key under
lexicographic string comparison; and for week grouping on parseable
dates every bucket key in the output is the YYYY-MM-DD rendering of a
Monday, obtained from some expense's date by the Sunday-back-6,
otherwise-back-to-Monday adjustment of getGroupKey. -/
theorem calculateSpendingOverTime_sorted_week_monday (ts : List Transaction) (g : GroupBy) :
    (calculateSpendingOverTime ts g).Sorted sotLE ∧
      ((∀ t ∈ ts, t.amount < 0 →
          ∃ y m d, parseIsoDate t.date = some (y, m, d) ∧ 1 ≤ y) →
        ∀ p ∈ calculateSpendingOverTime ts GroupBy.week,
          ∃ t ∈ ts, t.amount < 0 ∧ getGroupKey t.date GroupBy.week = some p.date ∧
            ∃ my mm md, p.date = formatYmd my mm md ∧ ValidDate my mm md ∧
              dayOfWeekNum my mm md = 1) := by
  haveI : IsTotal SpendingOverTime sotLE :=
    ⟨fun a b => charListLe_total a.date.data b.date.data⟩
  haveI : IsTrans SpendingOverTime sotLE :=
    ⟨fun _ _ _ h1 h2 => charListLe_trans _ _ _ h1 h2⟩
  constructor
  · rw [calculateSpendingOverTime]
    cases hE : List.foldlM (m := Option) (fun mp t => (getGroupKey t.date g).map
        fun k => mapSet mp k (mapGet mp k + |t.amount|)) []
        (ts.filter fun t => decide (t.amount < 0)) with
    | none => simp
    | some mp => exact List.sorted_insertionSort sotLE _
  · intro hdates p hp
    rw [calculateSpendingOverTime] at hp
    rcases hE : List.foldlM (m := Option) (fun mp t => (getGroupKey t.date GroupBy.week).map
        fun k => mapSet mp k (mapGet mp k + |t.amount|)) []
        (ts.filter fun t => decide (t.amount < 0)) with _ | mp
    · rw [hE] at hp
      simp at hp
    · rw [hE] at hp
      have hp2 : p ∈ (mp.map fun q => SpendingOverTime.mk q.1 q.2) :=
        ((List.perm_insertionSort sotLE _).mem_iff).mp hp
      rw [List.mem_map] at hp2
      obtain ⟨q, hq, hpq⟩ := hp2
      have hkey : p.date ∈ mp.map Prod.fst := by
        rw [← hpq]
        exact List.mem_map_of_mem Prod.fst hq
      rcases spendFold_keys GroupBy.week (ts.filter fun t => decide (t.amount < 0)) [] mp
          hE p.date hkey with h2 | h2
      · simp at h2
      · obtain ⟨t, ht, hgk⟩ := h2
        rw [List.mem_filter] at ht
        have hneg : t.amount < 0 := by
          have := ht.2
          simpa using this
        obtain ⟨y, m, d, hparse, hy⟩ := hdates t ht.1 hneg
        obtain ⟨hm1, hm12, hd1, hdm⟩ := parseIsoDate_valid t.date y m d hparse
        obtain ⟨my, mm, md, hgk2, hv2, hdow⟩ :=
          getGroupKey_week_monday t.date y m d hparse ⟨hy, hm1, hm12, hd1, hdm⟩
        rw [hgk] at hgk2
        injection hgk2 with hgk3
        exact ⟨t, ht.1, hneg, hgk, my, mm, md, hgk3, hv2, hdow⟩

/-- Witness for C4 at a single-expense list: the output of week grouping
is sorted bucket-key ascending, and its bucket 2025-01-13 is the Monday
of the week containing the expense's date 2025-01-15. -/
theorem calculateSpendingOverTime_sorted_week_monday_witness :
    (calculateSpendingOverTime [⟨"t1", "2025-01-15", -20, "Food", none⟩]
        GroupBy.week).Sorted sotLE ∧
      ∃ t ∈ [(⟨"t1", "2025-01-15", -20, "Food", none⟩ : Transaction)], t.amount < 0 ∧
        getGroupKey t.date GroupBy.week = some "2025-01-13" ∧
        ∃ my mm md, ("2025-01-13" : String) = formatYmd my mm md ∧ ValidDate my mm md ∧
          dayOfWeekNum my mm md = 1 := by
  have h := calculateSpendingOverTime_sorted_week_monday
    [⟨"t1", "2025-01-15", -20, "Food", none⟩] GroupBy.week
  have hdates : ∀ t ∈ [(⟨"t1", "2025-01-15", -20, "Food", none⟩ : Transaction)],
      t.amount < 0 → ∃ y m d, parseIsoDate t.date = some (y, m, d) ∧ 1 ≤ y := by
    intro t ht _
    rw [List.mem_singleton] at ht
    subst ht
    exact ⟨2025, 1, 15, by decide, by decide⟩
  have hmem : (⟨"2025-01-13", 20⟩ : SpendingOverTime) ∈
      calculateSpendingOverTime [⟨"t1", "2025-01-15", -20, "Food", none⟩] GroupBy.week := by
    have he : calculateSpendingOverTime [⟨"t1", "2025-01-15", -20, "Food", none⟩]
        GroupBy.week = [⟨"2025-01-13", 20⟩] := by
      have hg : getGroupKey "2025-01-15" GroupBy.week = some "2025-01-13" := by decide
      norm_num [calculateSpendingOverTime, hg, mapSet, mapGet, List.insertionSort,
        List.orderedInsert]
    rw [he]
    exact List.mem_singleton.mpr rfl
  exact ⟨h.1, h.2 hdates ⟨"2025-01-13", 20⟩ hmem⟩
